import Mathlib

/-!
Verification development for the Presentation Structure Extraction &
Classification Engine of the aura-lesson-weaver repository.

The TypeScript sources are shallowly embedded here:
  * `PptService` mirrors `src/services/pptAnalysisService.ts`
    (keyword-set slide classifier, slide loop of `analyzePowerPointFile`,
    `aggregateAnalysis`),
  * `ActivityDetection` mirrors `src/services/activityTypeDetection.ts`
    (layered classifier `categorizeActivityFromRawSlide`,
    `findBestPatternMatch`).

JavaScript strings are modelled by Lean `String`; all string literals in the
classification tables are ASCII, so `toLowerCase`, `trim`, `includes`,
`charAt(0).toUpperCase()` are modelled by the ASCII functions below.
JavaScript `Set` and `Map` (insertion-ordered) are modelled by
duplicate-free lists built by `addUnique` and association lists.
-/

namespace LessonWeaver

/-- ASCII model of `String.prototype.toLowerCase` (all table entries and the
inputs considered here are ASCII). -/
def lowerStr (s : String) : String := ⟨s.data.map Char.toLower⟩

/-- Model of `String.prototype.trim` on ASCII whitespace. -/
def trimStr (s : String) : String :=
  ⟨((s.data.dropWhile Char.isWhitespace).reverse.dropWhile Char.isWhitespace).reverse⟩

/-- Model of `s.charAt(0).toUpperCase() + s.slice(1)`. -/
def capFirst (s : String) : String :=
  match s.data with
  | [] => ""
  | c :: t => ⟨Char.toUpper c :: t⟩

/-- `needle` occurs as a prefix of `hay` (character lists). -/
def isPrefixOfB : List Char → List Char → Bool
  | [], _ => true
  | _ :: _, [] => false
  | a :: as, b :: bs => a == b && isPrefixOfB as bs

/-- `needle` occurs as a contiguous substring of `hay` (character lists). -/
def containsSub (needle : List Char) : List Char → Bool
  | [] => needle.isEmpty
  | c :: t => isPrefixOfB needle (c :: t) || containsSub needle t

/-- Model of `hay.includes(needle)`. -/
def strIncludes (hay needle : String) : Bool := containsSub needle.data hay.data

/-- Lexicographic less-or-equal on lists of naturals. -/
def lexLe : List Nat → List Nat → Bool
  | [], _ => true
  | _ :: _, [] => false
  | a :: as, b :: bs => a.blt b || (a.beq b && lexLe as bs)

/-- Model of the default JS `Array.prototype.sort` string comparison:
lexicographic by character code (all labels here are ASCII). -/
def strLeB (a b : String) : Bool :=
  lexLe (a.data.map Char.toNat) (b.data.map Char.toNat)

/-- The sort order used for the activity label list. -/
def strLe (a b : String) : Prop := strLeB a b = true

theorem lexLe_total : ∀ a b, lexLe a b = true ∨ lexLe b a = true
  | [], _ => Or.inl rfl
  | _ :: _, [] => Or.inr rfl
  | a :: as, b :: bs => by
    rcases Nat.lt_trichotomy a b with h | h | h
    · left
      simp only [lexLe, Bool.or_eq_true, Nat.blt_eq]
      exact Or.inl h
    · rcases lexLe_total as bs with ih | ih
      · left
        simp only [lexLe, Bool.or_eq_true, Bool.and_eq_true, Nat.blt_eq, Nat.beq_eq]
        exact Or.inr ⟨h, ih⟩
      · right
        simp only [lexLe, Bool.or_eq_true, Bool.and_eq_true, Nat.blt_eq, Nat.beq_eq]
        exact Or.inr ⟨h.symm, ih⟩
    · right
      simp only [lexLe, Bool.or_eq_true, Nat.blt_eq]
      exact Or.inl h

theorem lexLe_trans : ∀ a b c, lexLe a b = true → lexLe b c = true → lexLe a c = true
  | [], _, _, _, _ => rfl
  | _ :: _, [], _, hab, _ => by simp [lexLe] at hab
  | _ :: _, _ :: _, [], _, hbc => by simp [lexLe] at hbc
  | a :: as, b :: bs, c :: cs, hab, hbc => by
    simp only [lexLe, Bool.or_eq_true, Bool.and_eq_true, Nat.blt_eq, Nat.beq_eq] at hab hbc ⊢
    rcases hab with hab | ⟨hab, hab'⟩
    · rcases hbc with hbc | ⟨hbc, _⟩
      · exact Or.inl (Nat.lt_trans hab hbc)
      · exact Or.inl (hbc ▸ hab)
    · rcases hbc with hbc | ⟨hbc, hbc'⟩
      · exact Or.inl (hab ▸ hbc)
      · exact Or.inr ⟨hab.trans hbc, lexLe_trans as bs cs hab' hbc'⟩

instance : IsTotal String strLe :=
  ⟨fun a b => lexLe_total (a.data.map Char.toNat) (b.data.map Char.toNat)⟩

instance : IsTrans String strLe :=
  ⟨fun a b c => lexLe_trans (a.data.map Char.toNat) (b.data.map Char.toNat)
    (c.data.map Char.toNat)⟩

instance : DecidableRel strLe := fun a b => instDecidableEqBool (strLeB a b) true

/-- JS `Set.prototype.add`: append if absent, keeping first-insertion order. -/
def addUnique (l : List String) (x : String) : List String :=
  if x ∈ l then l else l ++ [x]

/-- Adding a whole list of elements to an insertion-ordered set. -/
def addAll (l : List String) (xs : List String) : List String :=
  xs.foldl addUnique l

namespace PptService

/-- The `ACTIVITY_KEYWORDS` table of `pptAnalysisService.ts` (lines 57-84),
in source order: keyword substring to activity label. -/
def ACTIVITY_KEYWORDS : List (String × String) :=
  [("reading", "Reading"),
   ("question", "Question"),
   ("terms", "Terms"),
   ("matching", "Matching"),
   ("fill in the blanks", "Fill in the Blanks"),
   ("fitb", "Fill in the Blanks"),
   ("sentences", "Sentences"),
   ("describing images", "Describing Images"),
   ("vocabulary", "Vocabulary"),
   ("discussion", "Discussion"),
   ("warm up", "Warm-up"),
   ("warm-up", "Warm-up"),
   ("pair work", "Pair Work"),
   ("group work", "Group Work"),
   ("role play", "Role Play"),
   ("listening", "Listening"),
   ("writing", "Writing"),
   ("speaking", "Speaking"),
   ("grammar", "Grammar"),
   ("practice", "Practice"),
   ("exercise", "Exercise"),
   ("game", "Game"),
   ("homework", "Homework"),
   ("review", "Review"),
   ("brainstorm", "Brainstorming"),
   ("presentation", "Presentation")]

/-- The lowercased concatenation `(slideTitle + ' ' + allText).toLowerCase()`
searched by `extractActivityTypesFromSlide`. -/
def combinedText (slideTitle allText : String) : String :=
  lowerStr (slideTitle ++ " " ++ allText)

/-- The branding suppression test of `extractActivityTypesFromSlide`
(lines 451-454): text contains both "copyright" and "lessonspeak". -/
def suppressed (slideTitle allText : String) : Bool :=
  strIncludes (combinedText slideTitle allText) "copyright" &&
    strIncludes (combinedText slideTitle allText) "lessonspeak"

/-- `extractActivityTypesFromSlide` of `pptAnalysisService.ts` (lines 434-459):
collect every keyword-matched activity label into a set, delete "Reading" on
copyright/branding slides, return the sorted labels, or `['Content Slide']`
when the set ends up empty. -/
def extractActivityTypesFromSlide (slideTitle allText : String) : List String :=
  let combined := combinedText slideTitle allText
  let found := ACTIVITY_KEYWORDS.foldl
    (fun acc kv => if strIncludes combined (lowerStr kv.1) then addUnique acc kv.2 else acc) []
  let found :=
    if strIncludes combined "copyright" && strIncludes combined "lessonspeak" then
      found.filter (fun a => a != "Reading")
    else found
  let activities := List.insertionSort strLe found
  if activities.length > 0 then activities else ["Content Slide"]

/-- The `primaryActivityType` computed by `analyzeSlideContent`
(`pptAnalysisService.ts` lines 406-411): the comma-space join of the found
activity types, defaulting to "Content Slide". -/
def primaryActivityType (slideTitle allText : String) : String :=
  let activityTypes := extractActivityTypesFromSlide slideTitle allText
  if activityTypes.length > 0 then String.intercalate ", " activityTypes else "Content Slide"

/-- A keyword of the `ACTIVITY_KEYWORDS` table matches the combined slide
text and maps to label `lab`. -/
def matchedLabel (slideTitle allText lab : String) : Prop :=
  ∃ kv ∈ ACTIVITY_KEYWORDS,
    strIncludes (combinedText slideTitle allText) (lowerStr kv.1) = true ∧ kv.2 = lab

/-- Label `lab` is matched and survives the copyright/branding suppression of
`extractActivityTypesFromSlide`. -/
def keptLabel (slideTitle allText lab : String) : Prop :=
  matchedLabel slideTitle allText lab ∧
    ¬(suppressed slideTitle allText = true ∧ lab = "Reading")

end PptService

namespace ActivityDetection

/-- One entry of an `ACTIVITY_PATTERNS` table: keyword list, category label
and integer priority. -/
structure ActivityPattern where
  keywords : List String
  category : String
  priority : Nat
  deriving DecidableEq, Repr

/-- The `ACTIVITY_PATTERNS` table of `activityTypeDetection.ts` (lines 30-66),
in source order. -/
def ACTIVITY_PATTERNS : List ActivityPattern :=
  [⟨["objective", "goal", "aim", "by the end", "will be able", "learning outcomes"],
    "Learning Objectives", 10⟩,
   ⟨["welcome", "introduction", "warm up", "ice breaker", "getting started", "let\x27s begin"],
    "Introduction", 10⟩,
   ⟨["vocabulary", "new words", "key terms", "lexis", "word study", "meaning"],
    "Vocabulary Development", 9⟩,
   ⟨["grammar", "structure", "language point", "tense", "syntax", "form"],
    "Grammar Focus", 9⟩,
   ⟨["pronunciation", "phonetics", "sounds", "intonation", "stress", "accent"],
    "Pronunciation Practice", 9⟩,
   ⟨["matching", "match", "pair up", "connect", "link"],
    "Matching Activities", 8⟩,
   ⟨["fill in", "complete", "gap fill", "blank", "missing", "choose"],
    "Gap Fill Activities", 8⟩,
   ⟨["role play", "roleplay", "act out", "scenario", "dialogue", "conversation"],
    "Role Play", 8⟩,
   ⟨["discussion", "talk about", "share", "debate", "opinion", "think"],
    "Discussion Activities", 8⟩,
   ⟨["listening", "audio", "hear", "sound", "listen to"],
    "Listening Activities", 8⟩,
   ⟨["reading", "text", "passage", "article", "read"],
    "Reading Activities", 8⟩,
   ⟨["writing", "write", "compose", "essay", "paragraph"],
    "Writing Activities", 8⟩,
   ⟨["speaking", "present", "tell", "explain", "describe"],
    "Speaking Activities", 8⟩,
   ⟨["practice", "exercise", "drill", "try this", "activity", "task"],
    "Practice Activities", 7⟩,
   ⟨["game", "quiz", "competition", "challenge", "play"],
    "Interactive Games", 7⟩,
   ⟨["group work", "teamwork", "collaborate", "together", "pairs"],
    "Collaborative Learning", 7⟩,
   ⟨["test", "exam", "assessment", "check", "evaluate"],
    "Assessment", 8⟩,
   ⟨["review", "summary", "recap", "what we learned", "consolidation"],
    "Review & Summary", 8⟩,
   ⟨["feedback", "correction", "error", "mistake", "check your work"],
    "Feedback & Correction", 7⟩,
   ⟨["presentation", "explanation", "demonstration", "show", "example"],
    "Content Presentation", 6⟩,
   ⟨["homework", "assignment", "next time", "for next class", "take home"],
    "Homework Assignment", 9⟩,
   ⟨["conclusion", "summary", "wrap up", "ending", "goodbye", "thank you"],
    "Lesson Conclusion", 8⟩]

/-- The `TITLE_CATEGORY_MAP` of `activityTypeDetection.ts` (lines 69-96), in
source (insertion) order: title substring to category. -/
def TITLE_CATEGORY_MAP : List (String × String) :=
  [("warm up", "Introduction"),
   ("ice breaker", "Introduction"),
   ("getting to know", "Introduction"),
   ("objectives", "Learning Objectives"),
   ("learning objectives", "Learning Objectives"),
   ("goals", "Learning Objectives"),
   ("new vocabulary", "Vocabulary Development"),
   ("vocabulary", "Vocabulary Development"),
   ("word bank", "Vocabulary Development"),
   ("grammar focus", "Grammar Focus"),
   ("grammar", "Grammar Focus"),
   ("listening", "Listening Activities"),
   ("reading", "Reading Activities"),
   ("speaking", "Speaking Activities"),
   ("writing", "Writing Activities"),
   ("discussion", "Discussion Activities"),
   ("group work", "Collaborative Learning"),
   ("pair work", "Collaborative Learning"),
   ("practice", "Practice Activities"),
   ("exercise", "Practice Activities"),
   ("activity", "Practice Activities"),
   ("game", "Interactive Games"),
   ("quiz", "Interactive Games"),
   ("review", "Review & Summary"),
   ("homework", "Homework Assignment"),
   ("conclusion", "Lesson Conclusion")]

/-- The score one pattern earns against an already-lowercased text:
(number of keywords occurring in the text) times the pattern's priority. -/
def patternScore (lowerText : String) (p : ActivityPattern) : Nat :=
  (p.keywords.filter (fun k => strIncludes lowerText (lowerStr k))).length * p.priority

/-- Running best match of `findBestPatternMatch`. -/
structure BestMatch where
  category : String
  score : Nat
  deriving DecidableEq, Repr

/-- The fold inside `findBestPatternMatch` (lines 159-170): keep the current
best unless a pattern with at least one keyword match attains a strictly
higher score. -/
def findBestAux (lowerText : String) : List ActivityPattern → BestMatch → BestMatch
  | [], best => best
  | p :: ps, best =>
    let matchCount := (p.keywords.filter (fun k => strIncludes lowerText (lowerStr k))).length
    let best :=
      if matchCount > 0 ∧ matchCount * p.priority > best.score then
        ⟨p.category, matchCount * p.priority⟩
      else best
    findBestAux lowerText ps best

/-- `findBestPatternMatch` of `activityTypeDetection.ts` (lines 155-173). -/
def findBestPatternMatch (text : String) : BestMatch :=
  findBestAux (lowerStr text) ACTIVITY_PATTERNS ⟨"Content Slide", 0⟩

/-- The structured slide input of `categorizeActivityFromRawSlide`
(`RawSlideContent`); `textElemCount` stands for `textElements.length`, the
only use the classifier makes of the element list.  The unused `xmlContent`
and `hasShapes` fields are omitted. -/
structure RawSlideContent where
  slideNumber : Nat
  title : String
  allText : String
  textElemCount : Nat
  hasImages : Bool
  layoutHints : List String
  deriving DecidableEq, Repr

/-- `inferFromLayout` of `activityTypeDetection.ts` (lines 175-196). -/
def inferFromLayout (s : RawSlideContent) : String :=
  if s.layoutHints.contains "bullets" && s.textElemCount > 3 then "Practice Activities"
  else if s.layoutHints.contains "table" then "Matching Activities"
  else if s.hasImages && s.textElemCount < 3 then "Content Presentation"
  else if s.layoutHints.contains "text-heavy" then "Reading Activities"
  else "Content Slide"

/-- `inferFromPosition` of `activityTypeDetection.ts` (lines 198-210). -/
def inferFromPosition (s : RawSlideContent) : String :=
  if s.slideNumber = 1 then "Introduction" else "Content Slide"

/-- `categorizeActivityFromRawSlide` of `activityTypeDetection.ts`
(lines 98-153): five prioritized strategies (direct title map, title pattern
match, content pattern match, layout inference, position inference), then
the title-as-label fallback and the "Content Slide" default. -/
def categorizeActivityFromRawSlide (s : RawSlideContent) : String :=
  let cleanTitle := lowerStr (trimStr s.title)
  match TITLE_CATEGORY_MAP.find? (fun e => strIncludes cleanTitle e.1) with
  | some e => e.2
  | none =>
    let titleMatch :=
      if cleanTitle ≠ "" then
        let tm := findBestPatternMatch cleanTitle
        if tm.category ≠ "Content Slide" then some tm.category else none
      else none
    match titleMatch with
    | some c => c
    | none =>
      let contentMatch := findBestPatternMatch s.allText
      if contentMatch.category ≠ "Content Slide" then contentMatch.category
      else
        let layoutCategory := inferFromLayout s
        if layoutCategory ≠ "Content Slide" then layoutCategory
        else
          let positionCategory := inferFromPosition s
          if positionCategory ≠ "Content Slide" then positionCategory
          else if s.title ≠ "" ∧ s.title.length > 2 ∧ s.title.length < 50 then
            capFirst s.title
          else "Content Slide"

/-- The legacy wrapper `categorizeActivityType` of `activityTypeDetection.ts`
(lines 213-227): builds the mock `RawSlideContent` (slide number 1, a single
text element, no images, no layout hints). -/
def categorizeActivityType (slideTitle allText : String) : String :=
  categorizeActivityFromRawSlide
    { slideNumber := 1
      title := slideTitle
      allText := allText
      textElemCount := 1
      hasImages := false
      layoutHints := [] }

/-- The exported `extractActivityTypesFromSlide` of
`activityTypeDetection.ts` (lines 233-236): a one-element list. -/
def extractActivityTypesFromSlide (slideTitle allText : String) : List String :=
  [categorizeActivityType slideTitle allText]

end ActivityDetection

namespace PptService

/-- The projection of a successfully parsed `SlideAnalysis` that the
slide loop of `analyzePowerPointFile` consumes: layout label, colors and
fonts of `designPatterns`, activity type and content type. -/
structure SlideData where
  layout : String
  colorScheme : List String
  fontHierarchy : List String
  activityType : String
  contentType : String
  deriving DecidableEq, Repr

/-- Outcome of handling one located slide part inside the loop of
`analyzePowerPointFile` (lines 144-184): the part's text was unavailable
(`continue`), `analyzeSlideContent` threw (placeholder is pushed), or the
slide was parsed. -/
inductive SlideOutcome where
  | missing
  | failed
  | parsed (s : SlideData)
  deriving DecidableEq, Repr

/-- The placeholder pushed by the `catch` branch (lines 168-182). -/
def placeholderFailed : SlideData :=
  { layout := "Unknown Layout"
    colorScheme := []
    fontHierarchy := []
    activityType := "Content Slide"
    contentType := "Main Content" }

/-- The placeholder pushed by the all-slides-unreadable fallback
(lines 187-207). -/
def placeholderFallback : SlideData :=
  { layout := "Standard Layout"
    colorScheme := []
    fontHierarchy := []
    activityType := "Content Slide"
    contentType := "Main Content" }

/-- JS `Map` update `layouts.set(layout, (layouts.get(layout) ?? 0) + 1)`
on an insertion-ordered association list. -/
def bumpLayout : List (String × Nat) → String → List (String × Nat)
  | [], k => [(k, 1)]
  | p :: rest, k =>
    if p.1 = k then (p.1, p.2 + 1) :: rest else p :: bumpLayout rest k

/-- The running state of the slide loop: the `slides` array (with slide
numbers) and the `designElements` sets and layout map. -/
structure DesignAcc where
  slides : List (Nat × SlideData)
  colors : List String
  fonts : List String
  activityTypes : List String
  contentTypes : List String
  layouts : List (String × Nat)
  deriving DecidableEq, Repr

/-- Initial accumulator (line 134-141). -/
def initAcc : DesignAcc := ⟨[], [], [], [], [], []⟩

/-- One iteration of the slide loop at index `i` (slide number `i + 1`):
a missing part is skipped, a throwing part pushes the placeholder without
touching `designElements`, a parsed part pushes the slide and aggregates
its colors, fonts, activity type, content type and layout count. -/
def stepOutcome (i : Nat) (acc : DesignAcc) : SlideOutcome → DesignAcc
  | .missing => acc
  | .failed => { acc with slides := acc.slides ++ [(i + 1, placeholderFailed)] }
  | .parsed s =>
    { slides := acc.slides ++ [(i + 1, s)]
      colors := addAll acc.colors s.colorScheme
      fonts := addAll acc.fonts s.fontHierarchy
      activityTypes :=
        if s.activityType ≠ "" then addUnique acc.activityTypes s.activityType
        else acc.activityTypes
      contentTypes :=
        if s.contentType ≠ "" then addUnique acc.contentTypes s.contentType
        else acc.contentTypes
      layouts := bumpLayout acc.layouts s.layout }

/-- The slide loop from index `i`. -/
def processFrom (i : Nat) (acc : DesignAcc) : List SlideOutcome → DesignAcc
  | [] => acc
  | o :: os => processFrom (i + 1) (stepOutcome i acc o) os

/-- The slides a run of the loop appends, with their slide numbers. -/
def builtSlides : Nat → List SlideOutcome → List (Nat × SlideData)
  | _, [] => []
  | i, .missing :: os => builtSlides (i + 1) os
  | i, .failed :: os => (i + 1, placeholderFailed) :: builtSlides (i + 1) os
  | i, .parsed s :: os => (i + 1, s) :: builtSlides (i + 1) os

/-- The successfully parsed slides, in order. -/
def parsedSlides (os : List SlideOutcome) : List SlideData :=
  os.filterMap fun o =>
    match o with
    | .parsed s => some s
    | _ => none

/-- Number of successfully parsed slide parts. -/
def countParsed (os : List SlideOutcome) : Nat := (parsedSlides os).length

/-- Number of slide parts whose parse threw (placeholder slides). -/
def countFailed : List SlideOutcome → Nat
  | [] => 0
  | .failed :: os => countFailed os + 1
  | _ :: os => countFailed os

/-- All slide-level colors, in slide order (the per-slide
`designPatterns.colorScheme` lists concatenated). -/
def parsedColors (os : List SlideOutcome) : List String :=
  ((parsedSlides os).map (·.colorScheme)).flatten

/-- All slide-level fonts, in slide order. -/
def parsedFonts (os : List SlideOutcome) : List String :=
  ((parsedSlides os).map (·.fontHierarchy)).flatten

/-- The non-empty activity-type labels of parsed slides, in slide order
(`if (slideAnalysis.activityType)` keeps only truthy labels). -/
def parsedActivityLabels (os : List SlideOutcome) : List String :=
  (parsedSlides os).filterMap fun s =>
    if s.activityType ≠ "" then some s.activityType else none

/-- `designSystem` fields of a `LessonStructure` that this development
tracks. -/
structure DesignSystemE where
  primaryColors : List String
  secondaryColors : List String
  fontFamilies : List String
  deriving DecidableEq, Repr

/-- `pedagogicalPatterns` fields of a `LessonStructure` that this
development tracks (the rest of the record is built by
`analyzePedagogicalPatterns` but its `activityTypes` field is overridden at
line 237 by the aggregated `designElements.activityTypes`). -/
structure PedagogicalPatternsE where
  activityTypes : List String
  deriving DecidableEq, Repr

/-- The `LessonStructure` result of `analyzePowerPointFile`
(logo positions, image styles and the remaining pedagogical text fields are
not modelled; no claim mentions them). -/
structure LessonStructureE where
  totalSlides : Nat
  lessonFlow : List String
  commonLayouts : List (String × Nat)
  designSystem : DesignSystemE
  pedagogicalPatterns : PedagogicalPatternsE
  deriving DecidableEq, Repr

/-- `extractLessonFlow` per-slide label (lines 572-574):
`slide.activityType || slide.contentType || 'Content Slide'`. -/
def flowLabel (s : SlideData) : String :=
  if s.activityType ≠ "" then s.activityType
  else if s.contentType ≠ "" then s.contentType
  else "Content Slide"

/-- `analyzePowerPointFile` (lines 87-245) from the point where the slide
parts have been located: run the slide loop over the per-part outcomes,
apply the all-slides-unreadable fallback, append the theme colors to the
color set, and assemble the `LessonStructure`. -/
def analyzePowerPointFile (outcomes : List SlideOutcome) (themeColors : List String) :
    LessonStructureE :=
  let acc := processFrom 0 initAcc outcomes
  let fallback := acc.slides.isEmpty && !outcomes.isEmpty
  let slides :=
    if fallback then (List.range outcomes.length).map (fun i => (i + 1, placeholderFallback))
    else acc.slides
  let activityTypes :=
    if fallback then
      (List.range outcomes.length).foldl (fun a _ => addUnique a "Content Slide")
        acc.activityTypes
    else acc.activityTypes
  let colors := addAll acc.colors themeColors
  { totalSlides := slides.length
    lessonFlow := slides.map (fun p => flowLabel p.2)
    commonLayouts := acc.layouts
    designSystem :=
      { primaryColors := colors.take 3
        secondaryColors := (colors.drop 3).take 3
        fontFamilies := acc.fonts.take 3 }
    pedagogicalPatterns := { activityTypes := activityTypes } }

/-- Sum of the layout histogram's counts. -/
def layoutSum (m : List (String × Nat)) : Nat := (m.map Prod.snd).sum

/-- Value of the first maximal digit run in a character list; 0 when there
is none. -/
def firstDigitRunVal : List Char → Nat
  | [] => 0
  | c :: t =>
    if c.isDigit then
      (c :: t.takeWhile Char.isDigit).foldl (fun n d => n * 10 + (d.toNat - 48)) 0
    else firstDigitRunVal t

/-- The integer parsed from the first digit run of a filename by
`parseInt(a.match(..)?.[0] || '0')` (lines 126-130); 0 when the name has
no digits. -/
def slideNumKey (s : String) : Nat := firstDigitRunVal s.data

/-- The numeric sort of the located slide filenames (lines 126-130); JS
`Array.prototype.sort` is stable and the comparator orders by
`slideNumKey`. -/
def sortSlideFiles (files : List String) : List String :=
  List.insertionSort (fun a b => slideNumKey a ≤ slideNumKey b) files

/-- `Math.round(a / b)` for natural `a` and positive natural `b`
(round half away from zero, here half up). -/
def natRoundDiv (a b : Nat) : Nat := (2 * a + b) / (2 * b)

/-- The `overview` block of the corpus summary. -/
structure OverviewE where
  totalLessons : Nat
  totalSlides : Nat
  averageSlidesPerLesson : Nat
  deriving DecidableEq, Repr

/-- The corpus summary assembled by `aggregateAnalysis` (lines 650-713);
the layout-usage percentages and the fixed prose fields are not modelled. -/
structure CorpusSummaryE where
  overview : OverviewE
  preferredFonts : List String
  preferredActivityTypes : List String
  deriving DecidableEq, Repr

/-- `aggregateAnalysis` (lines 650-713): overview counters, deduplicated
activity types across files, deduplicated fonts minus the generic
defaults. -/
def aggregateAnalysis (analyses : List LessonStructureE) : CorpusSummaryE :=
  let totalSlides := analyses.foldl (fun sum a => sum + a.totalSlides) 0
  let totalLessons := analyses.length
  let allActivityTypes :=
    analyses.foldl (fun l a => l ++ a.pedagogicalPatterns.activityTypes) []
  let uniqueActivityTypes := addAll [] allActivityTypes
  let allFonts := analyses.foldl (fun l a => l ++ a.designSystem.fontFamilies) []
  let uniqueFonts := (addAll [] allFonts).filter (fun font => font != "Arial" && font != "")
  { overview :=
      { totalLessons := totalLessons
        totalSlides := totalSlides
        averageSlidesPerLesson :=
          if totalSlides > 0 then natRoundDiv totalSlides totalLessons else 0 }
    preferredFonts :=
      if uniqueFonts.length > 0 then uniqueFonts.take 3 else ["Standard system fonts"]
    preferredActivityTypes := uniqueActivityTypes }

/-- The surrounding corpus run (`CorpusAnalyzer.tsx`, `startAnalysis`,
lines 123-128): when zero files were analyzed successfully it throws
`"No files could be analyzed successfully"` before the aggregator is ever
invoked; otherwise it returns the aggregate. -/
def startAnalysisAggregation (fileAnalyses : List LessonStructureE) :
    Except String CorpusSummaryE :=
  if fileAnalyses.length = 0 then Except.error "No files could be analyzed successfully"
  else Except.ok (aggregateAnalysis fileAnalyses)

end PptService

/-! ### Basic facts about the insertion-ordered set operations -/

theorem mem_addUnique {l : List String} {x y : String} :
    y ∈ addUnique l x ↔ y ∈ l ∨ y = x := by
  unfold addUnique
  by_cases h : x ∈ l
  · simp only [if_pos h]
    exact ⟨Or.inl, fun h' => h'.elim id (fun e => e ▸ h)⟩
  · simp [if_neg h]

theorem nodup_addUnique {l : List String} {x : String} (h : l.Nodup) :
    (addUnique l x).Nodup := by
  unfold addUnique
  by_cases hx : x ∈ l
  · simpa [if_pos hx] using h
  · rw [if_neg hx]
    refine List.Nodup.append h (List.nodup_singleton x) ?_
    intro a ha hax
    rw [List.mem_singleton] at hax
    exact hx (hax ▸ ha)

theorem addUnique_idem (l : List String) (x : String) :
    addUnique (addUnique l x) x = addUnique l x := by
  unfold addUnique
  by_cases h : x ∈ l
  · simp [if_pos h]
  · simp [if_neg h]

theorem addAll_cons (l : List String) (x : String) (xs : List String) :
    addAll l (x :: xs) = addAll (addUnique l x) xs := rfl

theorem mem_addAll {xs : List String} : ∀ {l : List String} {y : String},
    (y ∈ addAll l xs ↔ y ∈ l ∨ y ∈ xs) := by
  induction xs with
  | nil => intro l y; simp [addAll]
  | cons x xs ih =>
    intro l y
    rw [addAll_cons, ih, mem_addUnique]
    simp [List.mem_cons]
    tauto

theorem nodup_addAll {xs : List String} : ∀ {l : List String},
    l.Nodup → (addAll l xs).Nodup := by
  induction xs with
  | nil => intro l h; exact h
  | cons x xs ih => intro l h; rw [addAll_cons]; exact ih (nodup_addUnique h)

theorem addAll_append (l xs ys : List String) :
    addAll l (xs ++ ys) = addAll (addAll l xs) ys :=
  List.foldl_append ..

theorem addAll_prefix (xs : List String) : ∀ (l : List String),
    ∃ ys, addAll l xs = l ++ ys := by
  induction xs with
  | nil => intro l; exact ⟨[], by simp [addAll]⟩
  | cons x xs ih =>
    intro l
    rw [addAll_cons]
    by_cases h : x ∈ l
    · rw [show addUnique l x = l from by simp [addUnique, h]]
      exact ih l
    · rw [show addUnique l x = l ++ [x] from by simp [addUnique, h]]
      rcases ih (l ++ [x]) with ⟨ys, hys⟩
      exact ⟨x :: ys, by simpa using hys⟩

theorem foldl_range_addUnique (x : String) :
    ∀ (n : Nat) (a : List String),
      (List.range n).foldl (fun l _ => addUnique l x) a =
        if n = 0 then a else addUnique a x := by
  intro n
  induction n with
  | zero => intro a; simp
  | succ n ih =>
    intro a
    rw [List.range_succ, List.foldl_append]
    rcases Nat.eq_zero_or_pos n with h | h
    · subst h; simp
    · rw [ih, if_neg (Nat.pos_iff_ne_zero.mp h), if_neg (Nat.succ_ne_zero n),
        List.foldl_cons, List.foldl_nil, addUnique_idem]

/-- Membership in the keyword-collecting fold: an element is in the result
iff it was in the initial set or some table entry whose keyword satisfies
the match condition maps to it. -/
theorem mem_keyword_fold (c : String → Bool) :
    ∀ (tbl : List (String × String)) (init : List String) (x : String),
      (x ∈ tbl.foldl (fun acc kv => if c kv.1 then addUnique acc kv.2 else acc) init ↔
        x ∈ init ∨ ∃ kv ∈ tbl, c kv.1 = true ∧ kv.2 = x) := by
  intro tbl
  induction tbl with
  | nil => intro init x; simp
  | cons kv tbl ih =>
    intro init x
    rw [List.foldl_cons]
    by_cases h : c kv.1 = true
    · rw [if_pos h, ih, mem_addUnique]
      simp only [List.mem_cons, h]
      constructor
      · rintro ((hx | rfl) | ⟨kv', hkv', hc, he⟩)
        · exact Or.inl hx
        · exact Or.inr ⟨kv, Or.inl rfl, h, rfl⟩
        · exact Or.inr ⟨kv', Or.inr hkv', hc, he⟩
      · rintro (hx | ⟨kv', (rfl | hkv'), hc, he⟩)
        · exact Or.inl (Or.inl hx)
        · exact Or.inl (Or.inr he.symm)
        · exact Or.inr ⟨kv', hkv', hc, he⟩
    · rw [if_neg h, ih]
      simp only [List.mem_cons]
      constructor
      · rintro (hx | ⟨kv', hkv', hc, he⟩)
        · exact Or.inl hx
        · exact Or.inr ⟨kv', Or.inr hkv', hc, he⟩
      · rintro (hx | ⟨kv', (rfl | hkv'), hc, he⟩)
        · exact Or.inl hx
        · exact absurd hc h
        · exact Or.inr ⟨kv', hkv', hc, he⟩

theorem nodup_keyword_fold (c : String → Bool) :
    ∀ (tbl : List (String × String)) (init : List String), init.Nodup →
      (tbl.foldl (fun acc kv => if c kv.1 then addUnique acc kv.2 else acc) init).Nodup := by
  intro tbl
  induction tbl with
  | nil => intro init h; exact h
  | cons kv tbl ih =>
    intro init h
    rw [List.foldl_cons]
    by_cases hc : c kv.1 = true
    · rw [if_pos hc]; exact ih _ (nodup_addUnique h)
    · rw [if_neg hc]; exact ih _ h

namespace PptService

/-- The set of matched labels built by the fold inside
`extractActivityTypesFromSlide`, before the copyright suppression. -/
def foundLabels (slideTitle allText : String) : List String :=
  ACTIVITY_KEYWORDS.foldl
    (fun acc kv =>
      if strIncludes (combinedText slideTitle allText) (lowerStr kv.1) then addUnique acc kv.2
      else acc) []

/-- The label set after the copyright/branding suppression. -/
def keptLabels (slideTitle allText : String) : List String :=
  if suppressed slideTitle allText = true then
    (foundLabels slideTitle allText).filter (fun a => a != "Reading")
  else foundLabels slideTitle allText

theorem extract_eq (slideTitle allText : String) :
    extractActivityTypesFromSlide slideTitle allText =
      (if (List.insertionSort strLe (keptLabels slideTitle allText)).length > 0 then
        List.insertionSort strLe (keptLabels slideTitle allText)
      else ["Content Slide"]) := by
  unfold extractActivityTypesFromSlide keptLabels foundLabels suppressed
  rfl

theorem mem_foundLabels {slideTitle allText x : String} :
    x ∈ foundLabels slideTitle allText ↔ matchedLabel slideTitle allText x := by
  unfold foundLabels matchedLabel
  have h := mem_keyword_fold
    (fun k => strIncludes (combinedText slideTitle allText) (lowerStr k))
    ACTIVITY_KEYWORDS [] x
  simpa using h

theorem nodup_foundLabels (slideTitle allText : String) :
    (foundLabels slideTitle allText).Nodup :=
  nodup_keyword_fold _ ACTIVITY_KEYWORDS [] List.nodup_nil

theorem mem_keptLabels {slideTitle allText x : String} :
    x ∈ keptLabels slideTitle allText ↔ keptLabel slideTitle allText x := by
  unfold keptLabels keptLabel
  by_cases hs : suppressed slideTitle allText = true
  · rw [if_pos hs]
    simp only [List.mem_filter, mem_foundLabels, bne_iff_ne, ne_eq, hs, true_and]
  · rw [if_neg hs]
    simp only [mem_foundLabels]
    constructor
    · intro h; exact ⟨h, fun hc => hs hc.1⟩
    · intro h; exact h.1

theorem nodup_keptLabels (slideTitle allText : String) :
    (keptLabels slideTitle allText).Nodup := by
  unfold keptLabels
  by_cases hs : suppressed slideTitle allText = true
  · rw [if_pos hs]; exact (nodup_foundLabels slideTitle allText).filter _
  · rw [if_neg hs]; exact nodup_foundLabels slideTitle allText

theorem mem_extract_iff {slideTitle allText x : String} :
    x ∈ extractActivityTypesFromSlide slideTitle allText ↔
      (x ∈ List.insertionSort strLe (keptLabels slideTitle allText) ∧
        keptLabels slideTitle allText ≠ []) ∨
      (keptLabels slideTitle allText = [] ∧ x = "Content Slide") := by
  rw [extract_eq]
  have hperm := List.perm_insertionSort strLe (keptLabels slideTitle allText)
  by_cases h : keptLabels slideTitle allText = []
  · rw [h] at hperm ⊢
    simp only [List.insertionSort]
    simp [h]
  · have hlen : (List.insertionSort strLe (keptLabels slideTitle allText)).length > 0 := by
      rw [hperm.length_eq]
      exact List.length_pos.mpr h
    rw [if_pos hlen]
    simp [h]

instance decKeptLabel (slideTitle allText lab : String) :
    Decidable (keptLabel slideTitle allText lab) := by
  unfold keptLabel matchedLabel
  infer_instance

theorem extract_ne_nil (slideTitle allText : String) :
    extractActivityTypesFromSlide slideTitle allText ≠ [] := by
  rw [extract_eq]
  by_cases h : (List.insertionSort strLe (keptLabels slideTitle allText)).length > 0
  · rw [if_pos h]
    exact List.length_pos.mp h
  · rw [if_neg h]
    exact List.cons_ne_nil _ _

theorem exists_keptLabel_iff (slideTitle allText : String) :
    (∃ lab, keptLabel slideTitle allText lab) ↔ keptLabels slideTitle allText ≠ [] := by
  constructor
  · rintro ⟨lab, h⟩ he
    rw [← mem_keptLabels] at h
    rw [he] at h
    exact List.not_mem_nil lab h
  · intro h
    rcases List.exists_mem_of_ne_nil _ h with ⟨lab, hlab⟩
    exact ⟨lab, mem_keptLabels.mp hlab⟩

theorem layoutSum_bumpLayout (m : List (String × Nat)) (k : String) :
    layoutSum (bumpLayout m k) = layoutSum m + 1 := by
  induction m with
  | nil => simp [bumpLayout, layoutSum]
  | cons p rest ih =>
    by_cases h : p.1 = k
    · simp [bumpLayout, h, layoutSum]
      omega
    · simp [bumpLayout, h, layoutSum] at ih ⊢
      omega

theorem parsedSlides_cons_missing (os : List SlideOutcome) :
    parsedSlides (.missing :: os) = parsedSlides os := rfl

theorem parsedSlides_cons_failed (os : List SlideOutcome) :
    parsedSlides (.failed :: os) = parsedSlides os := rfl

theorem parsedSlides_cons_parsed (s : SlideData) (os : List SlideOutcome) :
    parsedSlides (.parsed s :: os) = s :: parsedSlides os := rfl

theorem processFrom_slides : ∀ (os : List SlideOutcome) (i : Nat) (acc : DesignAcc),
    (processFrom i acc os).slides = acc.slides ++ builtSlides i os := by
  intro os
  induction os with
  | nil => intro i acc; simp [processFrom, builtSlides]
  | cons o os ih =>
    intro i acc
    cases o with
    | missing => simpa [processFrom, stepOutcome, builtSlides] using ih (i + 1) acc
    | failed =>
      have h := ih (i + 1) { acc with slides := acc.slides ++ [(i + 1, placeholderFailed)] }
      simp only [processFrom, stepOutcome] at h ⊢
      rw [h, builtSlides]
      simp
    | parsed s =>
      have h := ih (i + 1) (stepOutcome i acc (.parsed s))
      simp only [processFrom] at h ⊢
      rw [h, builtSlides]
      simp [stepOutcome]

theorem processFrom_colors : ∀ (os : List SlideOutcome) (i : Nat) (acc : DesignAcc),
    (processFrom i acc os).colors = addAll acc.colors (parsedColors os) := by
  intro os
  induction os with
  | nil => intro i acc; simp [processFrom, parsedColors, parsedSlides, addAll]
  | cons o os ih =>
    intro i acc
    cases o with
    | missing =>
      simpa [processFrom, stepOutcome, parsedColors, parsedSlides_cons_missing]
        using ih (i + 1) acc
    | failed =>
      have h := ih (i + 1) { acc with slides := acc.slides ++ [(i + 1, placeholderFailed)] }
      simp only [processFrom, stepOutcome] at h ⊢
      rw [h]
      simp [parsedColors, parsedSlides_cons_failed]
    | parsed s =>
      have h := ih (i + 1) (stepOutcome i acc (.parsed s))
      simp only [processFrom] at h ⊢
      rw [h]
      simp only [stepOutcome, parsedColors, parsedSlides_cons_parsed, List.map_cons,
        List.flatten_cons]
      rw [addAll_append]

theorem processFrom_fonts : ∀ (os : List SlideOutcome) (i : Nat) (acc : DesignAcc),
    (processFrom i acc os).fonts = addAll acc.fonts (parsedFonts os) := by
  intro os
  induction os with
  | nil => intro i acc; simp [processFrom, parsedFonts, parsedSlides, addAll]
  | cons o os ih =>
    intro i acc
    cases o with
    | missing =>
      simpa [processFrom, stepOutcome, parsedFonts, parsedSlides_cons_missing]
        using ih (i + 1) acc
    | failed =>
      have h := ih (i + 1) { acc with slides := acc.slides ++ [(i + 1, placeholderFailed)] }
      simp only [processFrom, stepOutcome] at h ⊢
      rw [h]
      simp [parsedFonts, parsedSlides_cons_failed]
    | parsed s =>
      have h := ih (i + 1) (stepOutcome i acc (.parsed s))
      simp only [processFrom] at h ⊢
      rw [h]
      simp only [stepOutcome, parsedFonts, parsedSlides_cons_parsed, List.map_cons,
        List.flatten_cons]
      rw [addAll_append]

theorem processFrom_activityTypes : ∀ (os : List SlideOutcome) (i : Nat) (acc : DesignAcc),
    (processFrom i acc os).activityTypes =
      addAll acc.activityTypes (parsedActivityLabels os) := by
  intro os
  induction os with
  | nil => intro i acc; simp [processFrom, parsedActivityLabels, parsedSlides, addAll]
  | cons o os ih =>
    intro i acc
    cases o with
    | missing =>
      simpa [processFrom, stepOutcome, parsedActivityLabels, parsedSlides_cons_missing]
        using ih (i + 1) acc
    | failed =>
      have h := ih (i + 1) { acc with slides := acc.slides ++ [(i + 1, placeholderFailed)] }
      simp only [processFrom, stepOutcome] at h ⊢
      rw [h]
      simp [parsedActivityLabels, parsedSlides_cons_failed]
    | parsed s =>
      have h := ih (i + 1) (stepOutcome i acc (.parsed s))
      simp only [processFrom] at h ⊢
      rw [h]
      by_cases hs : s.activityType ≠ ""
      · simp only [stepOutcome, if_pos hs, parsedActivityLabels, parsedSlides_cons_parsed,
          List.filterMap_cons, if_pos hs]
        rw [addAll_cons]
      · simp only [stepOutcome, if_neg hs, parsedActivityLabels, parsedSlides_cons_parsed,
          List.filterMap_cons, if_neg hs]

theorem countParsed_cons_missing (os : List SlideOutcome) :
    countParsed (.missing :: os) = countParsed os := rfl

theorem countParsed_cons_failed (os : List SlideOutcome) :
    countParsed (.failed :: os) = countParsed os := rfl

theorem countParsed_cons_parsed (s : SlideData) (os : List SlideOutcome) :
    countParsed (.parsed s :: os) = countParsed os + 1 := by
  simp [countParsed, parsedSlides_cons_parsed]

theorem processFrom_layoutSum : ∀ (os : List SlideOutcome) (i : Nat) (acc : DesignAcc),
    layoutSum (processFrom i acc os).layouts = layoutSum acc.layouts + countParsed os := by
  intro os
  induction os with
  | nil => intro i acc; simp [processFrom, countParsed, parsedSlides]
  | cons o os ih =>
    intro i acc
    cases o with
    | missing =>
      simpa [processFrom, stepOutcome, countParsed_cons_missing] using ih (i + 1) acc
    | failed =>
      have h := ih (i + 1) { acc with slides := acc.slides ++ [(i + 1, placeholderFailed)] }
      simp only [processFrom, stepOutcome] at h ⊢
      rw [h, countParsed_cons_failed]
    | parsed s =>
      have h := ih (i + 1) (stepOutcome i acc (.parsed s))
      simp only [processFrom] at h ⊢
      rw [h, countParsed_cons_parsed]
      simp only [stepOutcome]
      rw [layoutSum_bumpLayout]
      omega

theorem builtSlides_length : ∀ (os : List SlideOutcome) (i : Nat),
    (builtSlides i os).length = countParsed os + countFailed os := by
  intro os
  induction os with
  | nil => intro i; simp [builtSlides, countParsed, parsedSlides, countFailed]
  | cons o os ih =>
    intro i
    cases o with
    | missing => simp [builtSlides, countParsed_cons_missing, countFailed, ih (i + 1)]
    | failed =>
      simp only [builtSlides, List.length_cons, countParsed_cons_failed, countFailed,
        ih (i + 1)]
      omega
    | parsed s =>
      simp only [builtSlides, List.length_cons, countParsed_cons_parsed, countFailed,
        ih (i + 1)]
      omega

theorem parsedActivityLabels_of_countParsed_zero {os : List SlideOutcome}
    (h : countParsed os = 0) : parsedActivityLabels os = [] := by
  unfold countParsed at h
  rw [List.length_eq_zero] at h
  simp [parsedActivityLabels, h]

theorem parsedColors_of_countParsed_zero {os : List SlideOutcome}
    (h : countParsed os = 0) : parsedColors os = [] := by
  unfold countParsed at h
  rw [List.length_eq_zero] at h
  simp [parsedColors, h]

/-- The all-slides-unreadable fallback (lines 186-207) triggers exactly when
the loop pushed no slide at all although slide parts were located. -/
theorem fallback_iff (os : List SlideOutcome) :
    ((processFrom 0 initAcc os).slides.isEmpty && !os.isEmpty) = true ↔
      countParsed os = 0 ∧ countFailed os = 0 ∧ os ≠ [] := by
  rw [Bool.and_eq_true, Bool.not_eq_true']
  have hs : (processFrom 0 initAcc os).slides = builtSlides 0 os := by
    simpa [initAcc] using processFrom_slides os 0 initAcc
  rw [hs]
  constructor
  · rintro ⟨h1, h2⟩
    have hlen : (builtSlides 0 os).length = 0 := by
      rw [List.isEmpty_iff] at h1
      simp [h1]
    rw [builtSlides_length] at hlen
    refine ⟨by omega, by omega, ?_⟩
    intro he
    rw [he] at h2
    simp [List.isEmpty] at h2
  · rintro ⟨h1, h2, h3⟩
    constructor
    · rw [List.isEmpty_iff, ← List.length_eq_zero, builtSlides_length]
      omega
    · cases os with
      | nil => exact absurd rfl h3
      | cons o os => rfl

end PptService

/-- C1 counterexample: a file whose single slide part fails to parse gets a
placeholder that counts toward `totalSlides` and `lessonFlow` but
contributes nothing to the layout histogram, so
`totalSlides == sum(commonLayouts.values())` fails. -/
theorem claim_C1_counterexample :
    (PptService.analyzePowerPointFile [PptService.SlideOutcome.failed] []).totalSlides = 1 ∧
    (PptService.analyzePowerPointFile [PptService.SlideOutcome.failed] []).lessonFlow.length
      = 1 ∧
    PptService.layoutSum
      (PptService.analyzePowerPointFile [PptService.SlideOutcome.failed] []).commonLayouts
      = 0 ∧
    ¬((PptService.analyzePowerPointFile [PptService.SlideOutcome.failed] []).totalSlides =
      PptService.layoutSum
        (PptService.analyzePowerPointFile
          [PptService.SlideOutcome.failed] []).commonLayouts) := by
  decide

/-- C1 (amended): `totalSlides == length(lessonFlow)` always holds; the sum
of the layout histogram instead equals the number of successfully parsed
slide parts, so the full three-way invariant holds exactly on runs where no
counted slide is a placeholder (no parse failure, and not the
all-slides-unreadable fallback). -/
theorem claim_C1_slide_count_invariant (outcomes : List PptService.SlideOutcome)
    (themeColors : List String) :
    (PptService.analyzePowerPointFile outcomes themeColors).totalSlides =
      (PptService.analyzePowerPointFile outcomes themeColors).lessonFlow.length ∧
    PptService.layoutSum
        (PptService.analyzePowerPointFile outcomes themeColors).commonLayouts =
      PptService.countParsed outcomes ∧
    (PptService.countFailed outcomes = 0 →
      (0 < PptService.countParsed outcomes ∨ outcomes = []) →
      (PptService.analyzePowerPointFile outcomes themeColors).totalSlides =
        PptService.layoutSum
          (PptService.analyzePowerPointFile outcomes themeColors).commonLayouts) := by
  have hlay : PptService.layoutSum
      (PptService.analyzePowerPointFile outcomes themeColors).commonLayouts =
      PptService.countParsed outcomes := by
    show PptService.layoutSum
      (PptService.processFrom 0 PptService.initAcc outcomes).layouts = _
    rw [PptService.processFrom_layoutSum]
    simp [PptService.initAcc, PptService.layoutSum]
  refine ⟨?_, hlay, ?_⟩
  · simp [PptService.analyzePowerPointFile]
  · intro hf hor
    have hfb : ((PptService.processFrom 0 PptService.initAcc outcomes).slides.isEmpty &&
        !outcomes.isEmpty) = false := by
      by_contra h
      rw [Bool.not_eq_false] at h
      rcases (PptService.fallback_iff outcomes).mp h with ⟨h1, _, h3⟩
      rcases hor with hcp | hnil
      · omega
      · exact h3 hnil
    rw [hlay]
    show (if ((PptService.processFrom 0 PptService.initAcc outcomes).slides.isEmpty &&
        !outcomes.isEmpty) = true then
        (List.range outcomes.length).map (fun i => (i + 1, PptService.placeholderFallback))
      else (PptService.processFrom 0 PptService.initAcc outcomes).slides).length = _
    rw [hfb]
    simp only [Bool.false_eq_true, if_false]
    rw [PptService.processFrom_slides]
    simp [PptService.initAcc, PptService.builtSlides_length, hf]

/-- Witness for C1 (amended): a two-slide file where both parts parse; all
three quantities agree. -/
theorem claim_C1_slide_count_invariant_witness :
    (PptService.analyzePowerPointFile
        [PptService.SlideOutcome.parsed
          ⟨"Title Slide", [], [], "Vocabulary", "Main Content"⟩,
         PptService.SlideOutcome.parsed
          ⟨"Text Heavy", [], [], "Content Slide", "Main Content"⟩] []).totalSlides =
      PptService.layoutSum
        (PptService.analyzePowerPointFile
          [PptService.SlideOutcome.parsed
            ⟨"Title Slide", [], [], "Vocabulary", "Main Content"⟩,
           PptService.SlideOutcome.parsed
            ⟨"Text Heavy", [], [], "Content Slide", "Main Content"⟩] []).commonLayouts :=
  (claim_C1_slide_count_invariant
    [PptService.SlideOutcome.parsed ⟨"Title Slide", [], [], "Vocabulary", "Main Content"⟩,
     PptService.SlideOutcome.parsed ⟨"Text Heavy", [], [], "Content Slide", "Main Content"⟩]
    []).2.2 (by decide) (Or.inl (by decide))

/-- C7 counterexample: a successfully parsed slide classified with the
default label (here literally produced by the pipeline classifier on a
keyword-free slide) makes "Content Slide" appear in
`pedagogicalPatterns.activityTypes`. -/
theorem claim_C7_counterexample :
    PptService.primaryActivityType "Welcome" "hello everyone" = "Content Slide" ∧
    "Content Slide" ∈ (PptService.analyzePowerPointFile
      [PptService.SlideOutcome.parsed
        ⟨"Title Slide", [], [],
          PptService.primaryActivityType "Welcome" "hello everyone", "Main Content"⟩]
      []).pedagogicalPatterns.activityTypes := by
  decide

/-- C7 (amended): `pedagogicalPatterns.activityTypes` is the deduplicated
(first-seen order) list of ALL non-empty activity-type labels of the
successfully parsed slides — including the generic default "Content Slide"
when a parsed slide carries it — plus "Content Slide" when the
all-slides-unreadable fallback ran; parse-failure placeholders contribute
no label. -/
theorem claim_C7_activity_type_set (outcomes : List PptService.SlideOutcome)
    (themeColors : List String) :
    (PptService.analyzePowerPointFile
        outcomes themeColors).pedagogicalPatterns.activityTypes.Nodup ∧
    (∀ x, x ∈ (PptService.analyzePowerPointFile
        outcomes themeColors).pedagogicalPatterns.activityTypes ↔
      x ∈ PptService.parsedActivityLabels outcomes ∨
        (PptService.countParsed outcomes = 0 ∧ PptService.countFailed outcomes = 0 ∧
          outcomes ≠ [] ∧ x = "Content Slide")) := by
  have hacts : (PptService.processFrom 0 PptService.initAcc outcomes).activityTypes =
      addAll [] (PptService.parsedActivityLabels outcomes) := by
    simpa [PptService.initAcc] using
      PptService.processFrom_activityTypes outcomes 0 PptService.initAcc
  by_cases hfb : ((PptService.processFrom 0 PptService.initAcc outcomes).slides.isEmpty &&
      !outcomes.isEmpty) = true
  · rcases (PptService.fallback_iff outcomes).mp hfb with ⟨h1, h2, h3⟩
    have hlab : PptService.parsedActivityLabels outcomes = [] :=
      PptService.parsedActivityLabels_of_countParsed_zero h1
    have hval : (PptService.analyzePowerPointFile
        outcomes themeColors).pedagogicalPatterns.activityTypes = ["Content Slide"] := by
      show (if ((PptService.processFrom 0 PptService.initAcc outcomes).slides.isEmpty &&
          !outcomes.isEmpty) = true then
          (List.range outcomes.length).foldl (fun a _ => addUnique a "Content Slide")
            (PptService.processFrom 0 PptService.initAcc outcomes).activityTypes
        else (PptService.processFrom 0 PptService.initAcc outcomes).activityTypes)
          = ["Content Slide"]
      rw [if_pos hfb, hacts, hlab, foldl_range_addUnique]
      have : outcomes.length ≠ 0 := by
        intro h
        exact h3 (List.length_eq_zero.mp h)
      rw [if_neg this]
      rfl
    rw [hval]
    constructor
    · exact List.nodup_singleton _
    · intro x
      rw [hlab]
      simp only [List.mem_singleton, List.not_mem_nil, false_or]
      constructor
      · intro h
        exact ⟨h1, h2, h3, h⟩
      · intro h
        exact h.2.2.2
  · have hval : (PptService.analyzePowerPointFile
        outcomes themeColors).pedagogicalPatterns.activityTypes =
        addAll [] (PptService.parsedActivityLabels outcomes) := by
      show (if ((PptService.processFrom 0 PptService.initAcc outcomes).slides.isEmpty &&
          !outcomes.isEmpty) = true then
          (List.range outcomes.length).foldl (fun a _ => addUnique a "Content Slide")
            (PptService.processFrom 0 PptService.initAcc outcomes).activityTypes
        else (PptService.processFrom 0 PptService.initAcc outcomes).activityTypes) = _
      rw [if_neg hfb, hacts]
    rw [hval]
    have hnofb : ¬(PptService.countParsed outcomes = 0 ∧
        PptService.countFailed outcomes = 0 ∧ outcomes ≠ []) := by
      intro hc
      exact hfb ((PptService.fallback_iff outcomes).mpr hc)
    constructor
    · exact nodup_addAll List.nodup_nil
    · intro x
      rw [mem_addAll]
      simp only [List.not_mem_nil, false_or]
      constructor
      · exact Or.inl
      · rintro (h | ⟨h1, h2, h3, _⟩)
        · exact h
        · exact absurd ⟨h1, h2, h3⟩ hnofb

/-- Witness for C7 (amended): membership clause evaluated on a concrete
two-slide file. -/
theorem claim_C7_activity_type_set_witness :
    "Vocabulary" ∈ (PptService.analyzePowerPointFile
        [PptService.SlideOutcome.parsed
          ⟨"Title Slide", [], [], "Vocabulary", "Main Content"⟩] []
      ).pedagogicalPatterns.activityTypes ↔
      "Vocabulary" ∈ PptService.parsedActivityLabels
          [PptService.SlideOutcome.parsed
            ⟨"Title Slide", [], [], "Vocabulary", "Main Content"⟩] ∨
        (PptService.countParsed
            [PptService.SlideOutcome.parsed
              ⟨"Title Slide", [], [], "Vocabulary", "Main Content"⟩] = 0 ∧
          PptService.countFailed
            [PptService.SlideOutcome.parsed
              ⟨"Title Slide", [], [], "Vocabulary", "Main Content"⟩] = 0 ∧
          [PptService.SlideOutcome.parsed
            ⟨"Title Slide", [], [], "Vocabulary", "Main Content"⟩] ≠
            ([] : List PptService.SlideOutcome) ∧
          "Vocabulary" = "Content Slide") :=
  (claim_C7_activity_type_set
    [PptService.SlideOutcome.parsed ⟨"Title Slide", [], [], "Vocabulary", "Main Content"⟩]
    []).2 "Vocabulary"

/-- C9: `primaryColors` is the first 3 and `secondaryColors` the next 3 of
the distinct colors in first-seen order, slide colors (in slide order)
first and theme colors appended after them — so theme colors act exactly as
a fallback: when the slides already supply at least 6 distinct colors the
first six positions are slide colors alone. -/
theorem claim_C9_design_system_colors (outcomes : List PptService.SlideOutcome)
    (themeColors : List String) :
    (PptService.analyzePowerPointFile outcomes themeColors).designSystem.primaryColors =
      (addAll [] (PptService.parsedColors outcomes ++ themeColors)).take 3 ∧
    (PptService.analyzePowerPointFile outcomes themeColors).designSystem.secondaryColors =
      ((addAll [] (PptService.parsedColors outcomes ++ themeColors)).drop 3).take 3 ∧
    (6 ≤ (addAll [] (PptService.parsedColors outcomes)).length →
      (PptService.analyzePowerPointFile outcomes themeColors).designSystem.primaryColors ++
        (PptService.analyzePowerPointFile
          outcomes themeColors).designSystem.secondaryColors =
        (addAll [] (PptService.parsedColors outcomes)).take 6) := by
  have hcol : (PptService.processFrom 0 PptService.initAcc outcomes).colors =
      addAll [] (PptService.parsedColors outcomes) := by
    simpa [PptService.initAcc] using
      PptService.processFrom_colors outcomes 0 PptService.initAcc
  have hprim : (PptService.analyzePowerPointFile
      outcomes themeColors).designSystem.primaryColors =
      (addAll [] (PptService.parsedColors outcomes ++ themeColors)).take 3 := by
    show (addAll (PptService.processFrom 0 PptService.initAcc outcomes).colors
      themeColors).take 3 = _
    rw [hcol, ← addAll_append]
  have hsec : (PptService.analyzePowerPointFile
      outcomes themeColors).designSystem.secondaryColors =
      ((addAll [] (PptService.parsedColors outcomes ++ themeColors)).drop 3).take 3 := by
    show ((addAll (PptService.processFrom 0 PptService.initAcc outcomes).colors
      themeColors).drop 3).take 3 = _
    rw [hcol, ← addAll_append]
  refine ⟨hprim, hsec, ?_⟩
  intro h6
  rcases addAll_prefix themeColors (addAll [] (PptService.parsedColors outcomes)) with
    ⟨ys, hys⟩
  rw [hprim, hsec, addAll_append, hys]
  rw [List.take_append_of_le_length (by omega),
    List.drop_append_of_le_length (by omega),
    List.take_append_of_le_length (by simp; omega)]
  rw [← List.take_add]

/-- Witness for C9: with six distinct slide colors the first six reported
colors ignore the theme colors. -/
theorem claim_C9_design_system_colors_witness :
    (PptService.analyzePowerPointFile
        [PptService.SlideOutcome.parsed
          ⟨"Title Slide", ["#111111", "#222222", "#333333", "#444444", "#555555", "#666666"],
            [], "Vocabulary", "Main Content"⟩]
        ["#ABCDEF"]).designSystem.primaryColors ++
      (PptService.analyzePowerPointFile
        [PptService.SlideOutcome.parsed
          ⟨"Title Slide", ["#111111", "#222222", "#333333", "#444444", "#555555", "#666666"],
            [], "Vocabulary", "Main Content"⟩]
        ["#ABCDEF"]).designSystem.secondaryColors =
      (addAll [] (PptService.parsedColors
        [PptService.SlideOutcome.parsed
          ⟨"Title Slide", ["#111111", "#222222", "#333333", "#444444", "#555555", "#666666"],
            [], "Vocabulary", "Main Content"⟩])).take 6 :=
  (claim_C9_design_system_colors
    [PptService.SlideOutcome.parsed
      ⟨"Title Slide", ["#111111", "#222222", "#333333", "#444444", "#555555", "#666666"],
        [], "Vocabulary", "Main Content"⟩]
    ["#ABCDEF"]).2.2 (by decide)

/-- C8: whenever the combined slide text contains both "copyright" and the
branding string "lessonspeak", the keyword classifier
`extractActivityTypesFromSlide` never returns the "Reading" label, even when
a reading keyword matched. -/
theorem claim_C8_copyright_never_reading (slideTitle allText : String)
    (hc : strIncludes (PptService.combinedText slideTitle allText) "copyright" = true)
    (hl : strIncludes (PptService.combinedText slideTitle allText) "lessonspeak" = true) :
    "Reading" ∉ PptService.extractActivityTypesFromSlide slideTitle allText := by
  intro hmem
  rw [PptService.mem_extract_iff] at hmem
  rcases hmem with ⟨hmem, _⟩ | ⟨_, habs⟩
  · have hk := (List.perm_insertionSort strLe _).mem_iff.mp hmem
    rw [PptService.mem_keptLabels] at hk
    exact hk.2 ⟨by simp [PptService.suppressed, hc, hl], rfl⟩
  · exact absurd habs (by decide)

/-- Witness for C8: a concrete branded copyright slide that matches the
"reading" keyword still gets no "Reading" label. -/
theorem claim_C8_copyright_never_reading_witness :
    "Reading" ∉ PptService.extractActivityTypesFromSlide "Reading time"
      "copyright lessonspeak all rights reserved" :=
  claim_C8_copyright_never_reading "Reading time" "copyright lessonspeak all rights reserved"
    (by decide) (by decide)

/-- C10 counterexample: on a branded copyright slide the keyword "reading"
matches (and the table maps it to "Reading"), yet the returned list is
`["Content Slide"]`, which does not contain every matched label — so the
claim as stated fails. -/
theorem claim_C10_counterexample :
    ("reading", "Reading") ∈ PptService.ACTIVITY_KEYWORDS ∧
    strIncludes (PptService.combinedText "" "reading the copyright page from lessonspeak")
      (lowerStr "reading") = true ∧
    "Reading" ∉ PptService.extractActivityTypesFromSlide ""
      "reading the copyright page from lessonspeak" ∧
    PptService.extractActivityTypesFromSlide "" "reading the copyright page from lessonspeak" =
      ["Content Slide"] := by
  decide

/-- C10 (amended): `extractActivityTypesFromSlide` returns a duplicate-free
list sorted in ascending character-code order; when at least one matched
label survives the copyright suppression the list holds exactly the
surviving matched labels, otherwise it is `["Content Slide"]`; and the
slide's recorded `activityType` is the comma-space join of that list. -/
theorem claim_C10_sorted_label_list (slideTitle allText : String) :
    (PptService.extractActivityTypesFromSlide slideTitle allText).Sorted strLe ∧
    (PptService.extractActivityTypesFromSlide slideTitle allText).Nodup ∧
    ((∃ lab, PptService.keptLabel slideTitle allText lab) →
      ∀ x, (x ∈ PptService.extractActivityTypesFromSlide slideTitle allText ↔
        PptService.keptLabel slideTitle allText x)) ∧
    ((¬ ∃ lab, PptService.keptLabel slideTitle allText lab) →
      PptService.extractActivityTypesFromSlide slideTitle allText = ["Content Slide"]) ∧
    PptService.primaryActivityType slideTitle allText =
      String.intercalate ", " (PptService.extractActivityTypesFromSlide slideTitle allText) := by
  refine ⟨?_, ?_, ?_, ?_, ?_⟩
  · rw [PptService.extract_eq]
    by_cases h : (List.insertionSort strLe (PptService.keptLabels slideTitle allText)).length > 0
    · rw [if_pos h]
      exact List.sorted_insertionSort strLe _
    · rw [if_neg h]
      exact List.sorted_singleton _
  · rw [PptService.extract_eq]
    by_cases h : (List.insertionSort strLe (PptService.keptLabels slideTitle allText)).length > 0
    · rw [if_pos h]
      exact ((List.perm_insertionSort strLe _).nodup_iff).mpr
        (PptService.nodup_keptLabels slideTitle allText)
    · rw [if_neg h]
      exact List.nodup_singleton _
  · intro hex x
    have hne := (PptService.exists_keptLabel_iff slideTitle allText).mp hex
    rw [PptService.mem_extract_iff]
    constructor
    · rintro (⟨hmem, _⟩ | ⟨habs, _⟩)
      · exact PptService.mem_keptLabels.mp ((List.perm_insertionSort strLe _).mem_iff.mp hmem)
      · exact absurd habs hne
    · intro hk
      exact Or.inl ⟨(List.perm_insertionSort strLe _).mem_iff.mpr
        (PptService.mem_keptLabels.mpr hk), hne⟩
  · intro hnex
    have he : PptService.keptLabels slideTitle allText = [] := by
      by_contra h
      exact hnex ((PptService.exists_keptLabel_iff slideTitle allText).mpr h)
    rw [PptService.extract_eq, he]
    simp [List.insertionSort]
  · unfold PptService.primaryActivityType
    have h := PptService.extract_ne_nil slideTitle allText
    rw [if_pos (List.length_pos.mpr h)]

/-- Witness for C10 (amended): on the compound-label slide
"Vocabulary Matching" the membership clause applies, with its existence
hypothesis discharged concretely. -/
theorem claim_C10_sorted_label_list_witness :
    "Matching" ∈ PptService.extractActivityTypesFromSlide "Vocabulary Matching" "" ↔
      PptService.keptLabel "Vocabulary Matching" "" "Matching" :=
  (claim_C10_sorted_label_list "Vocabulary Matching" "").2.2.1 ⟨"Matching", by decide⟩ "Matching"

/-- C3 counterexample: the classifier actually wired into the pipeline
(`extractActivityTypesFromSlide` in `pptAnalysisService.ts`, called by
`analyzeSlideContent`) has no title priority: title "Warm Up Activity" with
body text containing "practice" is classified "Practice, Warm-up", not
"Introduction". -/
theorem claim_C3_counterexample :
    PptService.extractActivityTypesFromSlide "Warm Up Activity"
      "students will practice new words" = ["Practice", "Warm-up"] ∧
    PptService.primaryActivityType "Warm Up Activity" "students will practice new words" =
      "Practice, Warm-up" ∧
    PptService.primaryActivityType "Warm Up Activity" "students will practice new words" ≠
      "Introduction" := by
  decide

/-- C3 (amended): in the layered classifier of `activityTypeDetection.ts`
(`categorizeActivityFromRawSlide` and its wrapper `categorizeActivityType`)
the direct title-substring map strictly precedes every body-level strategy:
a title-map hit decides the category (first matching entry), independently
of the slide's body text, and the two spec examples resolve to
"Introduction" and "Vocabulary Development" there. -/
theorem claim_C3_title_priority_layered :
    (∀ (s : ActivityDetection.RawSlideContent) (e : String × String),
      ActivityDetection.TITLE_CATEGORY_MAP.find?
          (fun en => strIncludes (lowerStr (trimStr s.title)) en.1) = some e →
        ActivityDetection.categorizeActivityFromRawSlide s = e.2) ∧
    (∀ (s : ActivityDetection.RawSlideContent) (t' : String),
      (ActivityDetection.TITLE_CATEGORY_MAP.find?
          (fun en => strIncludes (lowerStr (trimStr s.title)) en.1)).isSome = true →
        ActivityDetection.categorizeActivityFromRawSlide { s with allText := t' } =
          ActivityDetection.categorizeActivityFromRawSlide s) ∧
    ActivityDetection.categorizeActivityType "Warm Up Activity"
      "students will practice new words" = "Introduction" ∧
    ActivityDetection.categorizeActivityType "Vocabulary: Animals"
      "match the animal words to their pictures" = "Vocabulary Development" := by
  have key : ∀ (s : ActivityDetection.RawSlideContent) (e : String × String),
      ActivityDetection.TITLE_CATEGORY_MAP.find?
          (fun en => strIncludes (lowerStr (trimStr s.title)) en.1) = some e →
        ActivityDetection.categorizeActivityFromRawSlide s = e.2 := by
    intro s e h
    unfold ActivityDetection.categorizeActivityFromRawSlide
    simp only [h]
  refine ⟨key, ?_, by decide, by decide⟩
  intro s t' h
  rcases Option.isSome_iff_exists.mp h with ⟨e, he⟩
  exact (key { s with allText := t' } e he).trans (key s e he).symm

namespace PptService

/-- A `LessonStructure` holding only a slide count, for concrete
aggregation inputs. -/
def mkLesson (n : Nat) : LessonStructureE :=
  { totalSlides := n
    lessonFlow := []
    commonLayouts := []
    designSystem := { primaryColors := [], secondaryColors := [], fontFamilies := [] }
    pedagogicalPatterns := { activityTypes := [] } }

end PptService

instance : IsTotal String
    (fun a b => PptService.slideNumKey a ≤ PptService.slideNumKey b) :=
  ⟨fun _ _ => Nat.le_total _ _⟩

instance : IsTrans String
    (fun a b => PptService.slideNumKey a ≤ PptService.slideNumKey b) :=
  ⟨fun _ _ _ => Nat.le_trans⟩

theorem foldl_add_map (f : PptService.LessonStructureE → Nat) :
    ∀ (l : List PptService.LessonStructureE) (init : Nat),
      l.foldl (fun s a => s + f a) init = init + (l.map f).sum := by
  intro l
  induction l with
  | nil => intro init; simp
  | cons a l ih =>
    intro init
    rw [List.foldl_cons, ih, List.map_cons, List.sum_cons]
    omega

namespace ActivityDetection

/-- The largest score any pattern of the list earns against the text
(0 when no keyword of any pattern matches). -/
def maxScore (lowerText : String) : List ActivityPattern → Nat
  | [] => 0
  | p :: ps => max (patternScore lowerText p) (maxScore lowerText ps)

/-- Full specification of the fold in `findBestPatternMatch`: the result's
score is the running maximum, a run that never beats the incoming best
returns it unchanged, and otherwise the returned category belongs to the
first pattern attaining the maximum (every earlier pattern scores strictly
less) — so ties keep the earliest-registered category. -/
theorem findBestAux_spec (t : String) : ∀ (ps : List ActivityPattern) (b : BestMatch),
    (findBestAux t ps b).score = max b.score (maxScore t ps) ∧
    (maxScore t ps ≤ b.score → findBestAux t ps b = b) ∧
    (b.score < maxScore t ps →
      ∃ pre p post, ps = pre ++ p :: post ∧
        patternScore t p = maxScore t ps ∧
        (findBestAux t ps b).category = p.category ∧
        ∀ q ∈ pre, patternScore t q < maxScore t ps) := by
  intro ps
  induction ps with
  | nil =>
    intro b
    refine ⟨by simp [findBestAux, maxScore], fun _ => rfl, fun h => absurd h (by simp [maxScore])⟩
  | cons p ps ih =>
    intro b
    have hstep : findBestAux t (p :: ps) b =
        findBestAux t ps
          (if patternScore t p > b.score then ⟨p.category, patternScore t p⟩ else b) := by
      show findBestAux t ps _ = _
      congr 1
      by_cases hgt : patternScore t p > b.score
      · rw [if_pos hgt]
        have hmc : (p.keywords.filter (fun k => strIncludes t (lowerStr k))).length > 0 := by
          by_contra hmc
          have h0 : (p.keywords.filter (fun k => strIncludes t (lowerStr k))).length = 0 := by
            omega
          unfold patternScore at hgt
          rw [h0] at hgt
          omega
        rw [if_pos ⟨hmc, hgt⟩]
        rfl
      · rw [if_neg hgt, if_neg]
        intro hc
        exact hgt hc.2
    have hms : maxScore t (p :: ps) = max (patternScore t p) (maxScore t ps) := rfl
    rw [hstep, hms]
    by_cases hgt : patternScore t p > b.score
    · rw [if_pos hgt]
      rcases ih ⟨p.category, patternScore t p⟩ with ⟨ih1, ih2, ih3⟩
      have hble : b.score ≤ max (patternScore t p) (maxScore t ps) :=
        le_trans (Nat.le_of_lt hgt) (le_max_left _ _)
      refine ⟨?_, ?_, ?_⟩
      · rw [ih1, max_eq_right hble]
      · intro h
        exact absurd (le_trans (le_max_left _ _) h) (Nat.not_le_of_lt hgt)
      · intro _
        by_cases hM : maxScore t ps ≤ patternScore t p
        · rw [ih2 hM]
          exact ⟨[], p, ps, by simp, (max_eq_left hM).symm, rfl, by simp⟩
        · push_neg at hM
          have hmax : max (patternScore t p) (maxScore t ps) = maxScore t ps :=
            max_eq_right (Nat.le_of_lt hM)
          rcases ih3 hM with ⟨pre, p₀, post, hps, hsc, hcat, hpre⟩
          refine ⟨p :: pre, p₀, post, by rw [List.cons_append, hps], ?_, hcat, ?_⟩
          · rw [hmax]
            exact hsc
          · intro q hq
            rcases List.mem_cons.mp hq with rfl | hq
            · rw [hmax]
              exact hM
            · rw [hmax]
              exact hpre q hq
    · push_neg at hgt
      rw [if_neg (by omega)]
      rcases ih b with ⟨ih1, ih2, ih3⟩
      refine ⟨?_, ?_, ?_⟩
      · rw [ih1, ← max_assoc, max_eq_left hgt]
      · intro h
        exact ih2 (le_trans (le_max_right _ _) h)
      · intro h
        have hM : b.score < maxScore t ps := by
          rcases Nat.le_total (maxScore t ps) (patternScore t p) with h' | h'
          · rw [max_eq_left h'] at h
            exact absurd (Nat.lt_of_lt_of_le h hgt) (Nat.lt_irrefl _)
          · rwa [max_eq_right h'] at h
        have hmax : max (patternScore t p) (maxScore t ps) = maxScore t ps :=
          max_eq_right (le_trans hgt (Nat.le_of_lt hM))
        rcases ih3 hM with ⟨pre, p₀, post, hps, hsc, hcat, hpre⟩
        refine ⟨p :: pre, p₀, post, by rw [List.cons_append, hps], ?_, hcat, ?_⟩
        · rw [hmax]
          exact hsc
        · intro q hq
          rcases List.mem_cons.mp hq with rfl | hq
          · rw [hmax]
            exact Nat.lt_of_le_of_lt hgt hM
          · rw [hmax]
            exact hpre q hq

end ActivityDetection

/-- C2: the Slide Locator sort orders the located names ascending by the
integer parsed from each filename (no digits sorts as 0): the result is a
permutation of the input, pairwise ordered by the numeric key, and every
arrangement of slide10/slide2/slide1 recovers the numeric, not
lexicographic, order. -/
theorem claim_C2_numeric_slide_order :
    (∀ files : List String, List.Perm (PptService.sortSlideFiles files) files) ∧
    (∀ files : List String, (PptService.sortSlideFiles files).Pairwise
      (fun a b => PptService.slideNumKey a ≤ PptService.slideNumKey b)) ∧
    PptService.slideNumKey "slide10.xml" = 10 ∧
    PptService.slideNumKey "slide2.xml" = 2 ∧
    PptService.slideNumKey "slideExtra.xml" = 0 ∧
    (([["slide10.xml", "slide2.xml", "slide1.xml"],
       ["slide10.xml", "slide1.xml", "slide2.xml"],
       ["slide2.xml", "slide10.xml", "slide1.xml"],
       ["slide2.xml", "slide1.xml", "slide10.xml"],
       ["slide1.xml", "slide10.xml", "slide2.xml"],
       ["slide1.xml", "slide2.xml", "slide10.xml"]].all
      (fun p => PptService.sortSlideFiles p ==
        ["slide1.xml", "slide2.xml", "slide10.xml"]))) = true := by
  refine ⟨?_, ?_, by decide, by decide, by decide, by decide⟩
  · intro files
    exact List.perm_insertionSort _ files
  · intro files
    exact List.sorted_insertionSort _ files

/-- C4: in the weighted keyword-pattern step each category scores
(number of matching keywords) × (priority); the strictly highest score wins
and equal scores keep the earliest-registered category. The concrete title
"connect share" ties Matching Activities and Discussion Activities at 8 and
deterministically returns the earlier Matching Activities. -/
theorem claim_C4_weighted_keyword_scoring :
    (∀ text : String,
      (ActivityDetection.findBestPatternMatch text).score =
        ActivityDetection.maxScore (lowerStr text) ActivityDetection.ACTIVITY_PATTERNS ∧
      (ActivityDetection.maxScore (lowerStr text) ActivityDetection.ACTIVITY_PATTERNS = 0 →
        ActivityDetection.findBestPatternMatch text = ⟨"Content Slide", 0⟩) ∧
      (0 < ActivityDetection.maxScore (lowerStr text) ActivityDetection.ACTIVITY_PATTERNS →
        ∃ pre p post, ActivityDetection.ACTIVITY_PATTERNS = pre ++ p :: post ∧
          ActivityDetection.patternScore (lowerStr text) p =
            ActivityDetection.maxScore (lowerStr text)
              ActivityDetection.ACTIVITY_PATTERNS ∧
          (ActivityDetection.findBestPatternMatch text).category = p.category ∧
          ∀ q ∈ pre, ActivityDetection.patternScore (lowerStr text) q <
            ActivityDetection.maxScore (lowerStr text)
              ActivityDetection.ACTIVITY_PATTERNS)) ∧
    ActivityDetection.findBestPatternMatch "connect share" = ⟨"Matching Activities", 8⟩ ∧
    ((ActivityDetection.ACTIVITY_PATTERNS.filter
        (fun p => ActivityDetection.patternScore (lowerStr "connect share") p == 8)).map
        (fun p => p.category)) = ["Matching Activities", "Discussion Activities"] := by
  refine ⟨?_, by decide, by decide⟩
  intro text
  rcases ActivityDetection.findBestAux_spec (lowerStr text)
    ActivityDetection.ACTIVITY_PATTERNS ⟨"Content Slide", 0⟩ with ⟨h1, h2, h3⟩
  refine ⟨?_, ?_, ?_⟩
  · rw [ActivityDetection.findBestPatternMatch, h1]
    simp
  · intro h0
    rw [ActivityDetection.findBestPatternMatch]
    exact h2 (by simp [h0])
  · intro hpos
    exact h3 (by simpa using hpos)

/-- Witness for C4: the first-attaining-pattern clause instantiated at the
tied title "connect share". -/
theorem claim_C4_weighted_keyword_scoring_witness :
    ∃ pre p post, ActivityDetection.ACTIVITY_PATTERNS = pre ++ p :: post ∧
      ActivityDetection.patternScore (lowerStr "connect share") p =
        ActivityDetection.maxScore (lowerStr "connect share")
          ActivityDetection.ACTIVITY_PATTERNS ∧
      (ActivityDetection.findBestPatternMatch "connect share").category = p.category ∧
      ∀ q ∈ pre, ActivityDetection.patternScore (lowerStr "connect share") q <
        ActivityDetection.maxScore (lowerStr "connect share")
          ActivityDetection.ACTIVITY_PATTERNS :=
  (claim_C4_weighted_keyword_scoring.1 "connect share").2.2 (by decide)

/-- C5: the corpus overview reports `totalLessons` = number of inputs,
`totalSlides` = sum of per-file slide counts, and an average that is the
half-up integer rounding of their ratio (0 on an all-empty corpus); on
slide counts [5, 8, 3] it reports 16 total slides and average 5. -/
theorem claim_C5_overview_aggregation (analyses : List PptService.LessonStructureE) :
    (PptService.aggregateAnalysis analyses).overview.totalLessons = analyses.length ∧
    (PptService.aggregateAnalysis analyses).overview.totalSlides =
      (analyses.map (·.totalSlides)).sum ∧
    ((analyses.map (·.totalSlides)).sum = 0 →
      (PptService.aggregateAnalysis analyses).overview.averageSlidesPerLesson = 0) ∧
    (0 < (analyses.map (·.totalSlides)).sum →
      2 * analyses.length *
          (PptService.aggregateAnalysis analyses).overview.averageSlidesPerLesson ≤
        2 * (analyses.map (·.totalSlides)).sum + analyses.length ∧
      2 * (analyses.map (·.totalSlides)).sum + analyses.length <
        2 * analyses.length *
          ((PptService.aggregateAnalysis analyses).overview.averageSlidesPerLesson + 1)) ∧
    (PptService.aggregateAnalysis
        [PptService.mkLesson 5, PptService.mkLesson 8, PptService.mkLesson 3]).overview =
      ⟨3, 16, 5⟩ := by
  have hts : (PptService.aggregateAnalysis analyses).overview.totalSlides =
      (analyses.map (·.totalSlides)).sum := by
    show analyses.foldl (fun sum a => sum + a.totalSlides) 0 = _
    rw [foldl_add_map]
    exact Nat.zero_add _
  have havg : (PptService.aggregateAnalysis analyses).overview.averageSlidesPerLesson =
      if 0 < (analyses.map (·.totalSlides)).sum then
        PptService.natRoundDiv ((analyses.map (·.totalSlides)).sum) analyses.length
      else 0 := by
    show (if analyses.foldl (fun sum a => sum + a.totalSlides) 0 > 0 then
        PptService.natRoundDiv (analyses.foldl (fun sum a => sum + a.totalSlides) 0)
          analyses.length
      else 0) = _
    rw [show analyses.foldl (fun sum a => sum + a.totalSlides) 0 =
      (analyses.map (·.totalSlides)).sum from by rw [foldl_add_map]; exact Nat.zero_add _]
  refine ⟨rfl, hts, ?_, ?_, by decide⟩
  · intro h0
    rw [havg, if_neg (by omega)]
  · intro hpos
    have hlen : 0 < analyses.length := by
      cases analyses with
      | nil => simp at hpos
      | cons a l => simp
    rw [havg, if_pos hpos]
    unfold PptService.natRoundDiv
    rw [Nat.mul_add, Nat.mul_one]
    have h2l : 0 < 2 * analyses.length := by omega
    have hdm := Nat.div_add_mod
      (2 * (analyses.map (·.totalSlides)).sum + analyses.length) (2 * analyses.length)
    have hmod := Nat.mod_lt
      (2 * (analyses.map (·.totalSlides)).sum + analyses.length) h2l
    omega

/-- Witness for C5: the zero-slide clause applied to the empty corpus. -/
theorem claim_C5_overview_aggregation_witness :
    (PptService.aggregateAnalysis
      ([] : List PptService.LessonStructureE)).overview.averageSlidesPerLesson = 0 :=
  (claim_C5_overview_aggregation []).2.2.1 (by decide)

/-- C6 counterexample: applied to the empty sequence, `aggregateAnalysis`
does not fail — it returns a degenerate `CorpusSummary` with zero counters
(the claim says it fails with a "no analyzable input" condition instead of
returning one). -/
theorem claim_C6_counterexample :
    PptService.aggregateAnalysis ([] : List PptService.LessonStructureE) =
      { overview := { totalLessons := 0, totalSlides := 0, averageSlidesPerLesson := 0 }
        preferredFonts := ["Standard system fonts"]
        preferredActivityTypes := [] } := by
  decide

/-- C6 (amended): the "no analyzable input" failure lives in the caller:
the corpus run raises "No files could be analyzed successfully" when zero
files succeed, before the aggregator is invoked, and otherwise hands the
non-empty list to `aggregateAnalysis`. -/
theorem claim_C6_empty_corpus_guard :
    PptService.startAnalysisAggregation ([] : List PptService.LessonStructureE) =
      Except.error "No files could be analyzed successfully" ∧
    ∀ analyses : List PptService.LessonStructureE, analyses ≠ [] →
      PptService.startAnalysisAggregation analyses =
        Except.ok (PptService.aggregateAnalysis analyses) := by
  constructor
  · rfl
  · intro analyses h
    unfold PptService.startAnalysisAggregation
    rw [if_neg]
    intro hlen
    exact h (List.length_eq_zero.mp hlen)

/-- Witness for C6 (amended): one successful file reaches the aggregator. -/
theorem claim_C6_empty_corpus_guard_witness :
    PptService.startAnalysisAggregation [PptService.mkLesson 5] =
      Except.ok (PptService.aggregateAnalysis [PptService.mkLesson 5]) :=
  claim_C6_empty_corpus_guard.2 [PptService.mkLesson 5] (List.cons_ne_nil _ _)

/-- Witness for C3 (amended): the title-map clause applied to the concrete
"Warm Up Activity" slide. -/
theorem claim_C3_title_priority_layered_witness :
    ActivityDetection.categorizeActivityFromRawSlide
      { slideNumber := 1
        title := "Warm Up Activity"
        allText := "students will practice new words"
        textElemCount := 1
        hasImages := false
        layoutHints := [] } = ("warm up", "Introduction").2 :=
  claim_C3_title_priority_layered.1
    { slideNumber := 1
      title := "Warm Up Activity"
      allText := "students will practice new words"
      textElemCount := 1
      hasImages := false
      layoutHints := [] } ("warm up", "Introduction") (by decide)

end LessonWeaver
